import Mathlib

/-!
Shallow embedding of the process lifecycle control subsystem of
`src/include/procctrl.hpp` (Linux branch: signal backend plus cgroup v2
group freeze).  The OS is modelled by an `Env` oracle: the `/proc`
snapshot, the `/proc/<pid>/cgroup` file contents, the availability of
cgroup v2, and the outcomes of the `kill` probes and of the
`cgroup.freeze` open/write calls.  Every operation additionally returns
the list of backend actions it attempted (signal sends and freeze-file
writes), so that theorems can speak about what was done, not only about
the returned value.
-/

namespace Procctrl

/-- Outcome of `kill(pid, 0)`: success, `EPERM`, or `ESRCH`
(the only errno values `kill` with signal 0 can produce). -/
inductive KillZeroResult
| ok
| eperm
| esrch
deriving DecidableEq, BEq, Repr

/-- One record of the process-table snapshot: pid, executable name
(contents of `/proc/<pid>/comm`), and parent pid (from `/proc/<pid>/stat`). -/
structure ProcRec where
  pid : Int
  name : String
  ppid : Int
deriving DecidableEq, BEq, Repr

/-- The OS oracle seen by the library. -/
structure Env where
  /-- snapshot of the process table (`/proc` enumeration plus per-pid files) -/
  table : List ProcRec
  /-- lines of `/proc/<pid>/cgroup`; `none` when the file cannot be opened -/
  cgroupFile : Int → Option (List String)
  /-- whether `/sys/fs/cgroup/cgroup.controllers` exists -/
  cgroupV2Avail : Bool
  /-- outcome of the `kill(pid, 0)` probe -/
  kill0 : Int → KillZeroResult
  /-- whether `kill(pid, SIGSTOP/SIGCONT)` succeeds -/
  killOk : Int → Bool
  /-- whether opening the given `cgroup.freeze` file succeeds -/
  freezeOpenOk : String → Bool
  /-- whether writing to the given `cgroup.freeze` file succeeds -/
  freezeWriteOk : String → Bool

/-- A backend action attempted by the library. -/
inductive Action
| freezeWrite (path : String) (val : String)
| signal (pid : Int) (sig : Int)
deriving DecidableEq, BEq, Repr

def SIGSTOP : Int := 19

def SIGCONT : Int := 18

/-- `listPrefixEq pat l` is true when `pat` is an initial segment of `l`. -/
def listPrefixEq : List Char → List Char → Bool
| [], _ => true
| _ :: _, [] => false
| a :: pa, b :: pb => a == b && listPrefixEq pa pb

/-- Substring search over character lists (`std::string::find != npos`). -/
def listFindSub (pat : List Char) : List Char → Bool
| [] => listPrefixEq pat []
| c :: cs => listPrefixEq pat (c :: cs) || listFindSub pat cs

/-- `s.find(pat) != std::string::npos`. -/
def strContains (s pat : String) : Bool :=
  listFindSub pat.data s.data

/-- `is_cgroup_v2_available`: stat of `/sys/fs/cgroup/cgroup.controllers`. -/
def is_cgroup_v2_available (env : Env) : Bool :=
  env.cgroupV2Avail

/-- `get_cgroup_v2_path`: scan `/proc/<pid>/cgroup` for the first line
starting with `0::/` and return `/sys/fs/cgroup` plus the line without
its `0::` prefix; empty string if the file is unreadable or no line matches. -/
def get_cgroup_v2_path (env : Env) (pid : Int) : String :=
  match env.cgroupFile pid with
  | none => ""
  | some lines =>
    match lines.find? (fun l => listPrefixEq "0::/".data l.data) with
    | none => ""
    | some l => "/sys/fs/cgroup" ++ String.mk (l.data.drop 3)

/-- `process_exists`: `kill(pid, 0) == 0 || errno == EPERM`. -/
def process_exists (env : Env) (pid : Int) : Bool :=
  decide (env.kill0 pid = KillZeroResult.ok) ||
    decide (env.kill0 pid = KillZeroResult.eperm)

/-- `can_control_process`: `kill(pid, 0) == 0` yields true, otherwise
the result is `errno == EPERM`. -/
def can_control_process (env : Env) (pid : Int) : Bool :=
  if env.kill0 pid = KillZeroResult.ok then true
  else decide (env.kill0 pid = KillZeroResult.eperm)

/-- `find_all_processes_by_name`: every pid of the snapshot whose
`/proc/<pid>/comm` equals the requested name, in enumeration order. -/
def find_all_processes_by_name (env : Env) (exe_name : String) : List Int :=
  (env.table.filter (fun r => r.name == exe_name)).map (fun r => r.pid)

/-- `get_parent_pid`: the ppid field of `/proc/<pid>/stat`, `-1` when the
process is not in the snapshot. -/
def get_parent_pid (env : Env) (pid : Int) : Int :=
  match env.table.find? (fun r => r.pid == pid) with
  | some r => r.ppid
  | none => -1

/-- The `is_sandboxed_app` test of `set_process_suspended`: nonempty
cgroup path containing `app-` or `snap.`. -/
def is_sandboxed_app (env : Env) (pid : Int) : Bool :=
  let cgroup_path := get_cgroup_v2_path env pid
  decide (cgroup_path ≠ "") &&
    (strContains cgroup_path "app-" || strContains cgroup_path "snap.")

/-- The Isolation Domain Resolver of the spec, read off the branch
condition of `set_process_suspended`: `some` exactly when the pid's
cgroup path matches the sandboxed-app pattern and cgroup v2 freeze
control is available. -/
def resolve_domain (env : Env) (pid : Int) : Option String :=
  if is_sandboxed_app env pid && is_cgroup_v2_available env then
    some (get_cgroup_v2_path env pid)
  else none

/-- `set_process_suspended`: existence re-check, then either the cgroup
freeze path (write "1"/"0" to `<cgroup>/cgroup.freeze`) or the signal
path (`SIGSTOP`/`SIGCONT`).  Returns the success boolean together with
the attempted backend actions. -/
def set_process_suspended (env : Env) (pid : Int) (susp : Bool) :
    Bool × List Action :=
  if !(process_exists env pid) then (false, [])
  else if is_sandboxed_app env pid && is_cgroup_v2_available env then
    let freeze_file_path := get_cgroup_v2_path env pid ++ "/cgroup.freeze"
    if env.freezeOpenOk freeze_file_path then
      (env.freezeWriteOk freeze_file_path,
        [Action.freezeWrite freeze_file_path (if susp then "1" else "0")])
    else (false, [])
  else
    (env.killOk pid, [Action.signal pid (if susp then SIGSTOP else SIGCONT)])

/-- Shared loop body of `suspend_processes_by_name` and
`resume_processes_by_name` (the two differ only in the suspend flag):
walk the matched pids, skip a pid whose nonempty cgroup path was already
handled, otherwise record the path and act on the pid. -/
def suspendBatchAux (env : Env) (susp : Bool) :
    List Int → List String → Nat × List Action
| [], _ => (0, [])
| pid :: rest, handled =>
  let cgroup_path := get_cgroup_v2_path env pid
  if cgroup_path = "" then
    let r := set_process_suspended env pid susp
    let rr := suspendBatchAux env susp rest handled
    ((if r.fst then 1 else 0) + rr.fst, r.snd ++ rr.snd)
  else if cgroup_path ∈ handled then
    suspendBatchAux env susp rest handled
  else
    let r := set_process_suspended env pid susp
    let rr := suspendBatchAux env susp rest (cgroup_path :: handled)
    ((if r.fst then 1 else 0) + rr.fst, r.snd ++ rr.snd)

/-- `suspend_processes_by_name`. -/
def suspend_processes_by_name (env : Env) (exe_name : String) :
    Nat × List Action :=
  suspendBatchAux env true (find_all_processes_by_name env exe_name) []

/-- `resume_processes_by_name`. -/
def resume_processes_by_name (env : Env) (exe_name : String) :
    Nat × List Action :=
  suspendBatchAux env false (find_all_processes_by_name env exe_name) []

/-- The representative pids the batch loop actually acts on: matched
pids minus those skipped by the cgroup dedup. -/
def batchUnits (env : Env) : List Int → List String → List Int
| [], _ => []
| pid :: rest, handled =>
  let cgroup_path := get_cgroup_v2_path env pid
  if cgroup_path = "" then pid :: batchUnits env rest handled
  else if cgroup_path ∈ handled then batchUnits env rest handled
  else pid :: batchUnits env rest (cgroup_path :: handled)

/-- Children of `current` in the snapshot: the pids whose
`get_parent_pid` value equals `current`, in enumeration order
(the scan the tree walk performs on each iteration). -/
def childrenOf (table : List ProcRec) (current : Int) : List Int :=
  (table.filter (fun r => r.ppid == current)).map (fun r => r.pid)

/-- Fuelled version of the `get_process_tree` work-list loop: pop the
top of the stack, append its children to the result, push them. -/
def treeAux (table : List ProcRec) : Nat → List Int → List Int → List Int
| 0, tree, _ => tree
| _ + 1, tree, [] => tree
| fuel + 1, tree, current :: stack =>
  let kids := childrenOf table current
  treeAux table fuel (tree ++ kids) (kids.reverse ++ stack)

/-- `get_process_tree`: the work-list loop starting from the root.  The
fuel `table.length + 1` covers every run of the C++ loop on acyclic
parent data (each record is discovered and popped at most once). -/
def get_process_tree (table : List ProcRec) (root_pid : Int) : List Int :=
  treeAux table (table.length + 1) [root_pid] [root_pid]

/-- Suspension state of a process, tracked by the OS (not by the library). -/
inductive SuspensionState
| Running
| Suspended
deriving DecidableEq, BEq, Repr

/-- OS semantics of one backend action: `SIGSTOP` suspends the target
pid, `SIGCONT` resumes it; writing "1" ("0") to a `cgroup.freeze` file
suspends (resumes) every pid of that cgroup. -/
def applyAction (env : Env) (st : Int → SuspensionState) :
    Action → Int → SuspensionState
| Action.signal p sig, q =>
  if q = p then
    if sig = SIGSTOP then SuspensionState.Suspended
    else if sig = SIGCONT then SuspensionState.Running
    else st q
  else st q
| Action.freezeWrite path v, q =>
  if get_cgroup_v2_path env q ++ "/cgroup.freeze" = path then
    if v = "1" then SuspensionState.Suspended
    else if v = "0" then SuspensionState.Running
    else st q
  else st q

/-- Run a list of backend actions over a suspension-state map. -/
def runActions (env : Env) (st : Int → SuspensionState)
    (acts : List Action) : Int → SuspensionState :=
  acts.foldl (applyAction env) st

/-- A pid the caller can actually act on: the backend operation selected
for it (freeze-file write, or signal send) succeeds. -/
def controllable (env : Env) (pid : Int) : Bool :=
  match resolve_domain env pid with
  | some d => env.freezeOpenOk (d ++ "/cgroup.freeze") &&
      env.freezeWriteOk (d ++ "/cgroup.freeze")
  | none => env.killOk pid

/-- Two `worker` processes sharing one sandboxed-app cgroup, every OS
call succeeding. -/
def cex1Env : Env where
  table := [⟨101, "worker", 1⟩, ⟨205, "worker", 1⟩]
  cgroupFile := fun p => if p = 101 ∨ p = 205 then some ["0::/app-1"] else none
  cgroupV2Avail := true
  kill0 := fun _ => KillZeroResult.ok
  killOk := fun _ => true
  freezeOpenOk := fun _ => true
  freezeWriteOk := fun _ => true

/-- Two `svc` processes sharing one nonempty cgroup path that matches no
sandboxed-app pattern (an ordinary session scope), every OS call
succeeding. -/
def cex2Env : Env where
  table := [⟨401, "svc", 1⟩, ⟨402, "svc", 1⟩]
  cgroupFile := fun p =>
    if p = 401 ∨ p = 402 then some ["0::/user.slice/session-1.scope"] else none
  cgroupV2Avail := true
  kill0 := fun _ => KillZeroResult.ok
  killOk := fun _ => true
  freezeOpenOk := fun _ => true
  freezeWriteOk := fun _ => true

/-- A single `solo` process with an unreadable cgroup file (hence empty
cgroup path), controllable via signals. -/
def soloEnv : Env where
  table := [⟨310, "solo", 1⟩]
  cgroupFile := fun _ => none
  cgroupV2Avail := true
  kill0 := fun _ => KillZeroResult.ok
  killOk := fun _ => true
  freezeOpenOk := fun _ => true
  freezeWriteOk := fun _ => true

/-- An OS where every kill probe reports `ESRCH`: no process exists. -/
def goneEnv : Env where
  table := []
  cgroupFile := fun _ => none
  cgroupV2Avail := false
  kill0 := fun _ => KillZeroResult.esrch
  killOk := fun _ => false
  freezeOpenOk := fun _ => false
  freezeWriteOk := fun _ => false

/-- An OS where the kill probe on pid 777 is rejected with `EPERM`: the
process exists but the caller has no right to signal it. -/
def permEnv : Env where
  table := [⟨777, "rootd", 1⟩]
  cgroupFile := fun _ => none
  cgroupV2Avail := false
  kill0 := fun _ => KillZeroResult.eperm
  killOk := fun _ => false
  freezeOpenOk := fun _ => false
  freezeWriteOk := fun _ => false

/-- A snapshot holding the chain 1 → 2 → 3 (pid 2's parent is 1, pid 3's
parent is 2) and nothing else. -/
def chainTable : List ProcRec := [⟨2, "b", 1⟩, ⟨3, "c", 2⟩]

/-- Once a nonempty cgroup path is in the handled set, every further
matched pid resolving to that path is skipped: no action, no count. -/
lemma batch_skip_of_handled (env : Env) (susp : Bool) (d : String)
    (hd : d ≠ "") :
    ∀ (pids : List Int) (handled : List String),
      (∀ q ∈ pids, get_cgroup_v2_path env q = d) → d ∈ handled →
      suspendBatchAux env susp pids handled = (0, []) := by
  intro pids
  induction pids with
  | nil => intro handled _ _; rfl
  | cons p rest ih =>
    intro handled hall hmem
    have hp : get_cgroup_v2_path env p = d := hall p (List.mem_cons_self p rest)
    simp only [suspendBatchAux]
    rw [hp, if_neg hd, if_pos hmem]
    exact ih handled (fun q hq => hall q (List.mem_cons_of_mem p hq)) hmem

/-- The batch loop equals the per-unit description: the count is the
number of representative pids whose `set_process_suspended` succeeded,
and the action trace is the concatenation of every representative pid's
attempted actions. -/
lemma batch_aux_units_eq (env : Env) (susp : Bool) :
    ∀ (pids : List Int) (handled : List String),
      suspendBatchAux env susp pids handled =
        ((batchUnits env pids handled).countP
            (fun q => (set_process_suspended env q susp).fst),
          (batchUnits env pids handled).flatMap
            (fun q => (set_process_suspended env q susp).snd)) := by
  intro pids
  induction pids with
  | nil => intro handled; rfl
  | cons p rest ih =>
    intro handled
    simp only [suspendBatchAux, batchUnits]
    by_cases h1 : get_cgroup_v2_path env p = ""
    · rw [if_pos h1, if_pos h1, ih handled]
      by_cases hk : (set_process_suspended env p susp).fst = true <;>
        simp [hk, List.countP_cons, Nat.add_comm]
    · rw [if_neg h1, if_neg h1]
      by_cases h2 : get_cgroup_v2_path env p ∈ handled
      · rw [if_pos h2, if_pos h2, ih handled]
      · rw [if_neg h2, if_neg h2, ih (get_cgroup_v2_path env p :: handled)]
        by_cases hk : (set_process_suspended env p susp).fst = true <;>
          simp [hk, List.countP_cons, Nat.add_comm]

/-- C3: for every pid absent from the current process table (the kill
probe reports `ESRCH`), both `suspend(pid)` and `resume(pid)` re-validate
existence, return `false` (NotFound), and attempt no backend action. -/
theorem absent_pid_suspend_resume_notfound (env : Env) (pid : Int)
    (habs : env.kill0 pid = KillZeroResult.esrch) :
    set_process_suspended env pid true = (false, []) ∧
    set_process_suspended env pid false = (false, []) := by
  have hex : process_exists env pid = false := by
    simp [process_exists, habs]
  constructor <;> simp [set_process_suspended, hex]

theorem absent_pid_suspend_resume_notfound_witness :
    set_process_suspended goneEnv 555 true = (false, []) ∧
    set_process_suspended goneEnv 555 false = (false, []) :=
  absent_pid_suspend_resume_notfound goneEnv 555 (by decide)

/-- C6: on the signal backend, a kill probe rejected with `EPERM`
(the caller lacks the rights to control the pid) still makes
`can_control_process` return `true`, contradicting the claim (and the
function's own documentation) that a rights-rejected probe yields
`false`. -/
theorem can_control_eperm_returns_true :
    permEnv.kill0 777 = KillZeroResult.eperm ∧
    can_control_process permEnv 777 = true := by decide

/-- C4: whenever the Isolation Domain Resolver yields `some d`, every
backend action of `set_process_suspended` is the single write of "1"
(freeze) or "0" (thaw) to `d`'s `cgroup.freeze` node — in particular no
per-pid stop/continue signal is ever sent to the pid. -/
theorem resolved_domain_only_freeze_writes (env : Env) (pid : Int)
    (susp : Bool) (d : String) (h : resolve_domain env pid = some d) :
    (set_process_suspended env pid susp).snd = [] ∨
    (set_process_suspended env pid susp).snd =
      [Action.freezeWrite (d ++ "/cgroup.freeze")
        (if susp then "1" else "0")] := by
  unfold resolve_domain at h
  by_cases hc : (is_sandboxed_app env pid && is_cgroup_v2_available env) = true
  · rw [if_pos hc] at h
    have hd : d = get_cgroup_v2_path env pid := by
      exact (Option.some.inj h).symm
    subst hd
    by_cases hex : process_exists env pid = true
    · by_cases hopen :
        env.freezeOpenOk (get_cgroup_v2_path env pid ++ "/cgroup.freeze") = true
      · right
        simp [set_process_suspended, hex, hc, hopen]
      · left
        simp only [Bool.not_eq_true] at hopen
        simp [set_process_suspended, hex, hc, hopen]
    · left
      simp only [Bool.not_eq_true] at hex
      simp [set_process_suspended, hex]
  · rw [if_neg hc] at h
    exact absurd h (by simp)

/-- C7: suspend and resume are idempotent in outcome.  For a pid that
exists and whose selected backend operation succeeds, suspending when
the OS already holds it Suspended returns success and leaves it
Suspended, and resuming when it is already Running returns success and
leaves it Running. -/
theorem suspend_resume_idempotent_outcome (env : Env) (pid : Int)
    (st1 st2 : Int → SuspensionState)
    (hex : process_exists env pid = true)
    (hctl : controllable env pid = true)
    (_hst1 : st1 pid = SuspensionState.Suspended)
    (_hst2 : st2 pid = SuspensionState.Running) :
    ((set_process_suspended env pid true).fst = true ∧
      runActions env st1 (set_process_suspended env pid true).snd pid =
        SuspensionState.Suspended) ∧
    ((set_process_suspended env pid false).fst = true ∧
      runActions env st2 (set_process_suspended env pid false).snd pid =
        SuspensionState.Running) := by
  unfold controllable resolve_domain at hctl
  by_cases hc : (is_sandboxed_app env pid && is_cgroup_v2_available env) = true
  · rw [if_pos hc] at hctl
    simp only [Bool.and_eq_true] at hctl
    obtain ⟨hopen, hwrite⟩ := hctl
    have hset : ∀ susp, set_process_suspended env pid susp =
        (true, [Action.freezeWrite (get_cgroup_v2_path env pid ++ "/cgroup.freeze")
          (if susp then "1" else "0")]) := by
      intro susp
      simp [set_process_suspended, hex, hc, hopen, hwrite]
    constructor <;> rw [hset] <;>
      simp [runActions, applyAction]
  · rw [if_neg hc] at hctl
    simp at hctl
    simp only [Bool.not_eq_true] at hc
    have hset : ∀ susp, set_process_suspended env pid susp =
        (env.killOk pid, [Action.signal pid (if susp then SIGSTOP else SIGCONT)]) := by
      intro susp
      simp [set_process_suspended, hex, hc]
    constructor <;> rw [hset] <;>
      simp [runActions, applyAction, hctl, SIGSTOP, SIGCONT]

theorem suspend_resume_idempotent_outcome_witness :
    ((set_process_suspended soloEnv 310 true).fst = true ∧
      runActions soloEnv (fun _ => SuspensionState.Suspended)
        (set_process_suspended soloEnv 310 true).snd 310 =
        SuspensionState.Suspended) ∧
    ((set_process_suspended soloEnv 310 false).fst = true ∧
      runActions soloEnv (fun _ => SuspensionState.Running)
        (set_process_suspended soloEnv 310 false).snd 310 =
        SuspensionState.Running) :=
  suspend_resume_idempotent_outcome soloEnv 310
    (fun _ => SuspensionState.Suspended) (fun _ => SuspensionState.Running)
    (by decide) (by decide) rfl rfl

theorem resolved_domain_only_freeze_writes_witness :
    (set_process_suspended cex1Env 101 true).snd = [] ∨
    (set_process_suspended cex1Env 101 true).snd =
      [Action.freezeWrite ("/sys/fs/cgroup/app-1" ++ "/cgroup.freeze")
        (if true then "1" else "0")] :=
  resolved_domain_only_freeze_writes cex1Env 101 true "/sys/fs/cgroup/app-1"
    (by decide)

/-- C1 counterexample: `find_all_by_name "worker"` yields the N = 2 pids
101 and 205, both in sandboxed domain `/sys/fs/cgroup/app-1`; the batch
issues exactly one successful freeze write, yet returns count 1, not
count N = 2 as the claim states. -/
theorem shared_domain_count_not_N :
    find_all_processes_by_name cex1Env "worker" = [101, 205] ∧
    suspend_processes_by_name cex1Env "worker" =
      (1, [Action.freezeWrite "/sys/fs/cgroup/app-1/cgroup.freeze" "1"]) ∧
    (suspend_processes_by_name cex1Env "worker").fst ≠ 2 := by decide

/-- C1 (amended): when all N matched pids share one sandboxed domain `d`
and the freeze write succeeds, `suspend_processes_by_name` performs
exactly one freeze write to `d`'s `cgroup.freeze` and returns count 1 —
the one successful domain unit — regardless of N. -/
theorem shared_domain_single_freeze_count_one (env : Env) (exe d : String)
    (p : Int) (rest : List Int)
    (hfind : find_all_processes_by_name env exe = p :: rest)
    (hall : ∀ q ∈ p :: rest, get_cgroup_v2_path env q = d)
    (hsand : (decide (d ≠ "") &&
      (strContains d "app-" || strContains d "snap.")) = true)
    (hv2 : env.cgroupV2Avail = true)
    (hex : process_exists env p = true)
    (hopen : env.freezeOpenOk (d ++ "/cgroup.freeze") = true)
    (hwrite : env.freezeWriteOk (d ++ "/cgroup.freeze") = true) :
    suspend_processes_by_name env exe =
      (1, [Action.freezeWrite (d ++ "/cgroup.freeze") "1"]) := by
  have hd : d ≠ "" := by
    intro e
    rw [e] at hsand
    simp at hsand
  have hp : get_cgroup_v2_path env p = d := hall p (List.mem_cons_self p rest)
  have hsb : is_sandboxed_app env p = true := by
    simp only [is_sandboxed_app]
    rw [hp]
    exact hsand
  have hset : set_process_suspended env p true =
      (true, [Action.freezeWrite (d ++ "/cgroup.freeze") "1"]) := by
    simp only [set_process_suspended, hex, Bool.not_true, Bool.false_eq_true,
      if_false, hsb, is_cgroup_v2_available, hv2, Bool.and_self, if_true]
    rw [hp]
    simp [hopen, hwrite]
  unfold suspend_processes_by_name
  rw [hfind]
  simp only [suspendBatchAux]
  rw [hp, if_neg hd, if_neg (List.not_mem_nil d), hset,
    batch_skip_of_handled env true d hd rest [d]
      (fun q hq => hall q (List.mem_cons_of_mem p hq))
      (List.mem_cons_self d [])]
  simp

theorem shared_domain_single_freeze_count_one_witness :
    suspend_processes_by_name cex1Env "worker" =
      (1, [Action.freezeWrite ("/sys/fs/cgroup/app-1" ++ "/cgroup.freeze") "1"]) :=
  shared_domain_single_freeze_count_one cex1Env "worker" "/sys/fs/cgroup/app-1"
    101 [205] (by decide) (by decide) (by decide) (by decide) (by decide)
    (by decide) (by decide)

/-- C2 counterexample: pids 401 and 402 share the nonempty cgroup path
`/sys/fs/cgroup/user.slice/session-1.scope`, which matches no
sandboxed-app pattern, so neither pid has a resolvable isolation domain;
still the batch dedup skips pid 402 as a duplicate of 401 — one engine
call and count 1, where the claim demands both pids be acted on. -/
theorem unresolvable_domain_dedup_skips_pid :
    resolve_domain cex2Env 401 = none ∧
    resolve_domain cex2Env 402 = none ∧
    find_all_processes_by_name cex2Env "svc" = [401, 402] ∧
    suspend_processes_by_name cex2Env "svc" =
      (1, [Action.signal 401 SIGSTOP]) := by decide

/-- C2 (amended): the batch dedup keys on a nonempty cgroup path, not on
domain resolvability.  Only matched pids whose cgroup path is empty are
guaranteed a per-pid Suspension Engine call each: when every matched pid
has an empty cgroup path and exists, the batch sends one signal per pid
(suspend: `SIGSTOP`, resume: `SIGCONT`) and the count equals the number
of pids whose signal was accepted; in particular a single such match
yields one engine call and count 1. -/
theorem empty_cgroup_path_per_pid_engine (env : Env) (exe : String)
    (pids : List Int)
    (hfind : find_all_processes_by_name env exe = pids)
    (hdom : ∀ q ∈ pids, get_cgroup_v2_path env q = "")
    (hex : ∀ q ∈ pids, process_exists env q = true) :
    suspend_processes_by_name env exe =
      (pids.countP (fun q => env.killOk q),
        pids.map (fun q => Action.signal q SIGSTOP)) ∧
    resume_processes_by_name env exe =
      (pids.countP (fun q => env.killOk q),
        pids.map (fun q => Action.signal q SIGCONT)) := by
  have key : ∀ (susp : Bool) (l : List Int) (handled : List String),
      (∀ q ∈ l, get_cgroup_v2_path env q = "") →
      (∀ q ∈ l, process_exists env q = true) →
      suspendBatchAux env susp l handled =
        (l.countP (fun q => env.killOk q),
          l.map (fun q => Action.signal q (if susp then SIGSTOP else SIGCONT))) := by
    intro susp l
    induction l with
    | nil => intro handled _ _; rfl
    | cons p rest ih =>
      intro handled hdom' hex'
      have hp : get_cgroup_v2_path env p = "" := hdom' p (List.mem_cons_self p rest)
      have hpe : process_exists env p = true := hex' p (List.mem_cons_self p rest)
      have hsb : is_sandboxed_app env p = false := by
        simp [is_sandboxed_app, hp]
      have hset : set_process_suspended env p susp =
          (env.killOk p, [Action.signal p (if susp then SIGSTOP else SIGCONT)]) := by
        simp [set_process_suspended, hpe, hsb]
      simp only [suspendBatchAux]
      rw [hp, if_pos rfl, hset,
        ih handled (fun q hq => hdom' q (List.mem_cons_of_mem p hq))
          (fun q hq => hex' q (List.mem_cons_of_mem p hq))]
      by_cases hk : env.killOk p = true <;>
        simp [hk, List.countP_cons, Nat.add_comm]
  refine ⟨?_, ?_⟩
  · unfold suspend_processes_by_name
    rw [hfind, key true pids [] hdom hex]
    simp
  · unfold resume_processes_by_name
    rw [hfind, key false pids [] hdom hex]
    simp

theorem empty_cgroup_path_per_pid_engine_witness :
    suspend_processes_by_name soloEnv "solo" =
      (List.countP (fun q => soloEnv.killOk q) [310],
        List.map (fun q => Action.signal q SIGSTOP) [310]) ∧
    resume_processes_by_name soloEnv "solo" =
      (List.countP (fun q => soloEnv.killOk q) [310],
        List.map (fun q => Action.signal q SIGCONT) [310]) :=
  empty_cgroup_path_per_pid_engine soloEnv "solo" [310] (by decide) (by decide)
    (by decide)

/-- C5: the batch operations are continue-on-error.  For every
environment and name, suspend/resume by name process every representative
unit (the trace is the concatenation of each unit's attempted actions, so
no failure aborts the remaining units) and return exactly the number of
units whose operation succeeded, excluding each failed unit. -/
theorem batch_continue_on_error_count (env : Env) (exe : String) :
    suspend_processes_by_name env exe =
      ((batchUnits env (find_all_processes_by_name env exe) []).countP
          (fun q => (set_process_suspended env q true).fst),
        (batchUnits env (find_all_processes_by_name env exe) []).flatMap
          (fun q => (set_process_suspended env q true).snd)) ∧
    resume_processes_by_name env exe =
      ((batchUnits env (find_all_processes_by_name env exe) []).countP
          (fun q => (set_process_suspended env q false).fst),
        (batchUnits env (find_all_processes_by_name env exe) []).flatMap
          (fun q => (set_process_suspended env q false).snd)) :=
  ⟨batch_aux_units_eq env true (find_all_processes_by_name env exe) [],
    batch_aux_units_eq env false (find_all_processes_by_name env exe) []⟩

/-- The work-list loop only ever appends to the already-built tree. -/
lemma treeAux_extends (table : List ProcRec) :
    ∀ (fuel : Nat) (tree stack : List Int),
      ∃ r, treeAux table fuel tree stack = tree ++ r := by
  intro fuel
  induction fuel with
  | zero => intro tree stack; exact ⟨[], by simp [treeAux]⟩
  | succ n ih =>
    intro tree stack
    cases stack with
    | nil => exact ⟨[], by simp [treeAux]⟩
    | cons c rest =>
      obtain ⟨r, hr⟩ := ih (tree ++ childrenOf table c)
        ((childrenOf table c).reverse ++ rest)
      exact ⟨childrenOf table c ++ r, by
        simp only [treeAux]
        rw [hr, List.append_assoc]⟩

/-- A `childrenOf` value `[b]` exhibits a record of the snapshot with
pid `b` and parent `a`. -/
lemma childrenOf_eq_singleton {table : List ProcRec} {a b : Int}
    (h : childrenOf table a = [b]) :
    ∃ r, r ∈ table ∧ r.pid = b ∧ r.ppid = a := by
  unfold childrenOf at h
  cases hf : table.filter (fun r => r.ppid == a) with
  | nil => rw [hf] at h; simp at h
  | cons r t =>
    rw [hf] at h
    simp only [List.map_cons, List.cons.injEq] at h
    have hmem : r ∈ table.filter (fun r => r.ppid == a) := by
      rw [hf]; exact List.mem_cons_self r t
    rw [List.mem_filter] at hmem
    exact ⟨r, hmem.1, h.1, by
      have := hmem.2
      simpa using this⟩

/-- Two distinct members force length at least two. -/
lemma two_mem_le_length {α : Type} {l : List α} {x y : α}
    (hx : x ∈ l) (hy : y ∈ l) (hxy : x ≠ y) : 2 ≤ l.length := by
  obtain ⟨s, t, rfl⟩ := List.append_of_mem hx
  rw [List.mem_append, List.mem_cons] at hy
  rcases hy with hy | hy | hy
  · have := List.length_pos_of_mem hy
    simp [List.length_append]
    omega
  · exact absurd hy.symm hxy
  · have := List.length_pos_of_mem hy
    simp [List.length_append]
    omega

/-- C8: for a snapshot whose chain is A → B → C (the pids whose parent
is A are exactly `[B]`, those with parent B exactly `[C]`, and C has no
children), `get_process_tree A` returns exactly `[A, B, C]` — the root
plus all transitive descendants, no more and no less. -/
theorem process_tree_chain_exact (table : List ProcRec) (A B C : Int)
    (h1 : childrenOf table A = [B])
    (h2 : childrenOf table B = [C])
    (h3 : childrenOf table C = []) :
    get_process_tree table A = [A, B, C] := by
  have hBC : B ≠ C := by
    intro e
    subst e
    rw [h3] at h2
    simp at h2
  have hAB : A ≠ B := by
    intro e
    subst e
    rw [h1] at h2
    simp only [List.cons.injEq, and_true] at h2
    exact hBC h2
  obtain ⟨r1, hr1m, hr1p, _⟩ := childrenOf_eq_singleton h1
  obtain ⟨r2, hr2m, hr2p, _⟩ := childrenOf_eq_singleton h2
  have hr12 : r1 ≠ r2 := by
    intro e
    apply hBC
    rw [← hr1p, e, hr2p]
  have hlen : 2 ≤ table.length := two_mem_le_length hr1m hr2m hr12
  obtain ⟨k, hk⟩ : ∃ k, table.length + 1 = k + 1 + 1 + 1 :=
    ⟨table.length - 2, by omega⟩
  rw [get_process_tree, hk]
  simp only [treeAux]
  rw [h1]
  simp only [List.reverse_cons, List.reverse_nil, List.nil_append,
    List.append_nil, List.cons_append, List.singleton_append]
  simp only [treeAux]
  rw [h2]
  simp only [List.reverse_cons, List.reverse_nil, List.nil_append,
    List.append_nil, List.cons_append, List.singleton_append]
  simp only [treeAux]
  rw [h3]
  simp only [List.reverse_nil, List.nil_append, List.append_nil]
  cases k with
  | zero => rfl
  | succ n => rfl

theorem process_tree_chain_exact_witness :
    get_process_tree chainTable 1 = [1, 2, 3] :=
  process_tree_chain_exact chainTable 1 2 3 (by decide) (by decide) (by decide)

/-- C10: `get_process_tree` never fails and always places the root
first — for every snapshot and every pid `p`, including a pid absent
from the snapshot, the first element of the result is `p`; and when no
record lists `p` (or one of its discovered descendants) as parent, the
result is exactly the one-element list `[p]`. -/
theorem process_tree_root_first_total (table : List ProcRec) (p : Int) :
    (get_process_tree table p).head? = some p ∧
    (childrenOf table p = [] → get_process_tree table p = [p]) := by
  constructor
  · obtain ⟨r, hr⟩ := treeAux_extends table (table.length + 1) [p] [p]
    rw [get_process_tree, hr]
    rfl
  · intro h
    rw [get_process_tree]
    simp only [treeAux]
    rw [h]
    simp only [List.reverse_nil, List.nil_append, List.append_nil]
    cases hl : table.length with
    | zero => rfl
    | succ n => rfl

theorem process_tree_root_first_total_witness :
    (get_process_tree chainTable 99).head? = some 99 ∧
    get_process_tree chainTable 99 = [99] :=
  ⟨(process_tree_root_first_total chainTable 99).1,
    (process_tree_root_first_total chainTable 99).2 (by decide)⟩

end Procctrl
